import Mathlib

/-!
Verification of the server metrics aggregation module (`src/server/src/metrics.rs`).

The module keeps a ring of 60 one-second accumulation buckets (`MetricsWindow`
rows keyed by `window_id`) and a log of emitted snapshots (`ServerMetrics` rows
keyed by `timestamp`).  We embed the two tables as lists of rows, timestamps as
natural numbers of microseconds, and the `u64` timestamp subtraction performed
by the code as subtraction modulo 2^64 (`u64sub`).  `f32` latency values and
derived metrics are modelled as exact rationals; `i32` counters are modelled as
unbounded integers (no claim concerns 32-bit counter overflow).  The host
resource readings and the connected-player count, which the reducer obtains
from external collaborators (`sysinfo`, the `player` table), enter the model as
parameters of `update_server_metrics`.  Row insertion respects the primary-key
constraint of the tables: inserting a row whose key is already present leaves
the table unchanged.
-/

/-- `2^64`, the modulus of Rust `u64` arithmetic. -/
def u64size : Nat := 18446744073709551616

/-- Wrapping `u64` subtraction `a - b`, as performed by
`ctx.timestamp.micros() - window.start_time.micros()` in the source.
Both arguments are assumed to be `u64` values (`< u64size`). -/
def u64sub (a b : Nat) : Nat := (a + u64size - b) % u64size

/-- `METRICS_WINDOW_COUNT` from the source: the ring holds 60 one-second
buckets. -/
def metricsWindowCount : Nat := 60

/-- One row of the `MetricsWindow` table: a one-second accumulation bucket. -/
structure MetricsWindow where
  window_id : Int
  start_time : Nat
  update_count : Int
  total_update_time_ms : Rat
deriving DecidableEq

/-- One row of the `ServerMetrics` table: an emitted snapshot. -/
structure ServerMetrics where
  timestamp : Nat
  connected_clients : Int
  updates_per_second : Rat
  average_update_time_ms : Rat
  memory_usage_mb : Rat
  cpu_usage_percent : Rat
deriving DecidableEq

/-- The database state visible to the reducers: the two tables. -/
structure DbState where
  metrics_window : List MetricsWindow
  server_metrics : List ServerMetrics
deriving DecidableEq

/-- Insert into the `MetricsWindow` table; a duplicate `window_id`
(primary key) makes the insert fail, leaving the table unchanged. -/
def insertWindow (tbl : List MetricsWindow) (w : MetricsWindow) : List MetricsWindow :=
  if tbl.any (fun r => r.window_id == w.window_id) then tbl else tbl ++ [w]

/-- Insert into the `ServerMetrics` table; a duplicate `timestamp`
(primary key) makes the insert fail, leaving the table unchanged. -/
def insertSnapshot (tbl : List ServerMetrics) (s : ServerMetrics) : List ServerMetrics :=
  if tbl.any (fun r => r.timestamp == s.timestamp) then tbl else tbl ++ [s]

/-- The `init_metrics` reducer: insert 60 zeroed buckets with ids `0..59`,
each starting at the current timestamp. -/
def init_metrics (db : DbState) (now : Nat) : DbState :=
  let tbl :=
    (List.range metricsWindowCount).foldl
      (fun tbl i => insertWindow tbl
        { window_id := Int.ofNat i,
          start_time := now,
          update_count := 0,
          total_update_time_ms := 0 })
      db.metrics_window
  { db with metrics_window := tbl }

/-- `(ctx.timestamp.micros() / 1_000_000) % METRICS_WINDOW_COUNT`, cast to
`i32`: the bucket index targeted by a `record` call at time `now`. -/
def currentWindowId (now : Nat) : Int :=
  Int.ofNat ((now / 1000000) % metricsWindowCount)

/-- `update_by_window_id`: replace the row whose `window_id` matches the
given row's key. -/
def update_by_window_id (tbl : List MetricsWindow) (w : MetricsWindow) : List MetricsWindow :=
  tbl.map (fun r => if r.window_id == w.window_id then w else r)

/-- The `record_update_metrics` reducer: locate the bucket at the current
index; reset it if its window has fully expired (wrapping `u64` age test),
otherwise accumulate into it; no-op when the bucket is absent. -/
def record_update_metrics (db : DbState) (now : Nat) (update_time_ms : Rat) : DbState :=
  match db.metrics_window.find? (fun r => r.window_id == currentWindowId now) with
  | none => db
  | some window =>
      let w :=
        if metricsWindowCount * 1000000 ≤ u64sub now window.start_time then
          { window with start_time := now, update_count := 1,
                        total_update_time_ms := update_time_ms }
        else
          { window with update_count := window.update_count + 1,
                        total_update_time_ms := window.total_update_time_ms + update_time_ms }
      { db with metrics_window := update_by_window_id db.metrics_window w }

/-- The bucket scan at the start of `update_server_metrics`: sum
`update_count` and `total_update_time_ms` over every bucket whose wrapping
age `now - start_time` is under 60 seconds. -/
def liveTotals (windows : List MetricsWindow) (now : Nat) : Int × Rat :=
  windows.foldl
    (fun acc w =>
      if u64sub now w.start_time < metricsWindowCount * 1000000 then
        (acc.1 + w.update_count, acc.2 + w.total_update_time_ms)
      else acc)
    (0, 0)

/-- The snapshot row composed by one `update_server_metrics` tick and passed
to the insert: derived rate and average from the live totals, plus the
externally supplied connected-client count and resource readings, stored
without any further transformation. -/
def tickSnapshot (db : DbState) (now : Nat) (connected_clients : Int)
    (memory_usage_mb cpu_usage_percent : Rat) : ServerMetrics :=
  let t := liveTotals db.metrics_window now
  { timestamp := now,
    connected_clients := connected_clients,
    updates_per_second := (t.1 : Rat) / (metricsWindowCount : Rat),
    average_update_time_ms := if 0 < t.1 then t.2 / (t.1 : Rat) else 0,
    memory_usage_mb := memory_usage_mb,
    cpu_usage_percent := cpu_usage_percent }

/-- The `update_server_metrics` reducer: insert the composed snapshot, then
delete every snapshot whose timestamp is below the wrapping cutoff
`now - 60_000_000` microseconds. -/
def update_server_metrics (db : DbState) (now : Nat) (connected_clients : Int)
    (memory_usage_mb cpu_usage_percent : Rat) : DbState :=
  let snap := tickSnapshot db now connected_clients memory_usage_mb cpu_usage_percent
  let cutoff := u64sub now 60000000
  let kept :=
    (insertSnapshot db.server_metrics snap).filter
      (fun m => !(decide (m.timestamp < cutoff)))
  { db with server_metrics := kept }

/-- The bucket table produced by `init_metrics` on an empty table. -/
def initialWindows (now : Nat) : List MetricsWindow :=
  (List.range metricsWindowCount).map
    (fun i => { window_id := Int.ofNat i,
                start_time := now,
                update_count := 0,
                total_update_time_ms := 0 })

/-- Well-formed bucket table whose accumulation periods all start at `t0`:
exactly the ids `0..59` in order, every bucket opened at `t0`. -/
def goodWindows (t0 : Nat) (L : List MetricsWindow) : Prop :=
  L.map (fun w => w.window_id) = (List.range metricsWindowCount).map Int.ofNat
    ∧ ∀ w ∈ L, w.start_time = t0

/-- Total sample count held by a bucket table. -/
def sumCounts (L : List MetricsWindow) : Int :=
  (L.map (fun w => w.update_count)).sum

/-- Total accumulated latency held by a bucket table. -/
def sumTimes (L : List MetricsWindow) : Rat :=
  (L.map (fun w => w.total_update_time_ms)).sum

/-- Folding `record_update_metrics` over a list of timestamped samples. -/
def recordAll (db : DbState) (samples : List (Nat × Rat)) : DbState :=
  samples.foldl (fun s p => record_update_metrics s p.1 p.2) db

theorem u64sub_of_le {a b : Nat} (h : b ≤ a) (h2 : a - b < u64size) :
    u64sub a b = a - b := by
  unfold u64sub
  rw [show a + u64size - b = (a - b) + u64size by omega, Nat.add_mod_right]
  exact Nat.mod_eq_of_lt h2

theorem u64sub_of_lt {a b : Nat} (h : a < b) (h2 : b < u64size) :
    u64sub a b = u64size - (b - a) := by
  unfold u64sub
  rw [show a + u64size - b = u64size - (b - a) by omega]
  exact Nat.mod_eq_of_lt (by omega)

theorem insertWindow_of_not_mem {tbl : List MetricsWindow} {w : MetricsWindow}
    (h : ∀ r ∈ tbl, r.window_id ≠ w.window_id) :
    insertWindow tbl w = tbl ++ [w] := by
  have hany : tbl.any (fun r => r.window_id == w.window_id) = false := by
    rw [List.any_eq_false]
    intro r hr
    simpa using h r hr
  simp [insertWindow, hany]

theorem foldl_insertWindow_fresh (t0 : Nat) (l : List Nat) (tbl : List MetricsWindow)
    (hnd : l.Nodup)
    (hfresh : ∀ i ∈ l, ∀ r ∈ tbl, r.window_id ≠ Int.ofNat i) :
    List.foldl
      (fun tbl i => insertWindow tbl
        { window_id := Int.ofNat i,
          start_time := t0,
          update_count := 0,
          total_update_time_ms := 0 }) tbl l
    = tbl ++ l.map (fun i =>
        ({ window_id := Int.ofNat i,
           start_time := t0,
           update_count := 0,
           total_update_time_ms := 0 } : MetricsWindow)) := by
  induction l generalizing tbl with
  | nil => simp
  | cons a t ih =>
    simp only [List.foldl_cons, List.map_cons]
    rw [insertWindow_of_not_mem (fun r hr => hfresh a (List.mem_cons_self a t) r hr)]
    rw [ih (tbl ++ [_]) hnd.of_cons ?_]
    · simp
    · intro i hi r hr
      rcases List.mem_append.mp hr with hcase | hcase
      · exact hfresh i (List.mem_cons_of_mem a hi) r hcase
      · have hr' : r = ({ window_id := Int.ofNat a, start_time := t0, update_count := 0, total_update_time_ms := 0 } : MetricsWindow) := by
          simpa using hcase
        subst hr'
        simp only [ne_eq, Int.ofNat.injEq]
        intro hai
        exact (List.nodup_cons.mp hnd).1 (hai ▸ hi)

theorem init_metrics_empty (t0 : Nat) (ms : List ServerMetrics) :
    init_metrics { metrics_window := [], server_metrics := ms } t0
      = { metrics_window := initialWindows t0, server_metrics := ms } := by
  simp only [init_metrics]
  rw [foldl_insertWindow_fresh t0 (List.range metricsWindowCount) []
    (List.nodup_range _) (by simp)]
  simp [initialWindows]

theorem sumCounts_nil : sumCounts [] = 0 := rfl

theorem sumCounts_cons (a : MetricsWindow) (l : List MetricsWindow) :
    sumCounts (a :: l) = a.update_count + sumCounts l := by
  simp [sumCounts]

theorem sumTimes_nil : sumTimes [] = 0 := rfl

theorem sumTimes_cons (a : MetricsWindow) (l : List MetricsWindow) :
    sumTimes (a :: l) = a.total_update_time_ms + sumTimes l := by
  simp [sumTimes]

theorem initialWindows_ids (t0 : Nat) :
    (initialWindows t0).map (fun w => w.window_id)
      = (List.range metricsWindowCount).map Int.ofNat := by
  simp [initialWindows, List.map_map]

theorem initialWindows_good (t0 : Nat) : goodWindows t0 (initialWindows t0) := by
  refine ⟨initialWindows_ids t0, ?_⟩
  intro w hw
  rcases List.mem_map.mp hw with ⟨i, _, rfl⟩
  rfl

theorem sumCounts_initialWindows (t0 : Nat) : sumCounts (initialWindows t0) = 0 := by
  simp [sumCounts, initialWindows, List.map_map]
  induction List.range metricsWindowCount with
  | nil => rfl
  | cons a t ih => simpa using ih

theorem sumTimes_initialWindows (t0 : Nat) : sumTimes (initialWindows t0) = 0 := by
  simp [sumTimes, initialWindows, List.map_map]
  induction List.range metricsWindowCount with
  | nil => rfl
  | cons a t ih => simpa using ih

theorem liveTotals_all_live {L : List MetricsWindow} {now : Nat}
    (h : ∀ w ∈ L, u64sub now w.start_time < metricsWindowCount * 1000000) :
    liveTotals L now = (sumCounts L, sumTimes L) := by
  have key : ∀ (l : List MetricsWindow) (acc : Int × Rat),
      (∀ w ∈ l, u64sub now w.start_time < metricsWindowCount * 1000000) →
      l.foldl
        (fun acc w =>
          if u64sub now w.start_time < metricsWindowCount * 1000000 then
            (acc.1 + w.update_count, acc.2 + w.total_update_time_ms)
          else acc) acc
      = (acc.1 + sumCounts l, acc.2 + sumTimes l) := by
    intro l
    induction l with
    | nil => intro acc _; simp [sumCounts_nil, sumTimes_nil]
    | cons a t ih =>
      intro acc hl
      have ha := hl a (List.mem_cons_self a t)
      simp only [List.foldl_cons, if_pos ha]
      rw [ih _ (fun w hw => hl w (List.mem_cons_of_mem a hw))]
      rw [sumCounts_cons, sumTimes_cons]
      simp only [Prod.mk.injEq]
      constructor <;> ring
  have := key L (0, 0) h
  simpa [liveTotals] using this

theorem liveTotals_none_live {L : List MetricsWindow} {now : Nat}
    (h : ∀ w ∈ L, ¬ (u64sub now w.start_time < metricsWindowCount * 1000000)) :
    liveTotals L now = (0, 0) := by
  have key : ∀ (l : List MetricsWindow) (acc : Int × Rat),
      (∀ w ∈ l, ¬ (u64sub now w.start_time < metricsWindowCount * 1000000)) →
      l.foldl
        (fun acc w =>
          if u64sub now w.start_time < metricsWindowCount * 1000000 then
            (acc.1 + w.update_count, acc.2 + w.total_update_time_ms)
          else acc) acc
      = acc := by
    intro l
    induction l with
    | nil => intro acc _; rfl
    | cons a t ih =>
      intro acc hl
      have ha := hl a (List.mem_cons_self a t)
      simp only [List.foldl_cons, if_neg ha]
      exact ih _ (fun w hw => hl w (List.mem_cons_of_mem a hw))
  exact key L (0, 0) h

theorem update_by_no_match {t : List MetricsWindow} {new : MetricsWindow}
    (h : ∀ r ∈ t, (r.window_id == new.window_id) = false) :
    update_by_window_id t new = t := by
  unfold update_by_window_id
  induction t with
  | nil => rfl
  | cons a l ih =>
    simp only [List.map_cons]
    rw [h a (List.mem_cons_self a l)]
    simp only [Bool.false_eq_true, if_false]
    rw [ih (fun r hr => h r (List.mem_cons_of_mem a hr))]

theorem find?_update_by {L : List MetricsWindow} {w new : MetricsWindow} {c : Int}
    (hfind : L.find? (fun r => r.window_id == c) = some w)
    (hnew : new.window_id = w.window_id) :
    (update_by_window_id L new).find? (fun r => r.window_id == c) = some new := by
  have hwc : w.window_id = c := by
    have := List.find?_some hfind
    simpa using this
  induction L with
  | nil => simp at hfind
  | cons a t ih =>
    cases hb : (a.window_id == c) with
    | true =>
      have ha : a = w := by
        simp [List.find?_cons, hb] at hfind
        exact hfind
      subst ha
      have hb' : (a.window_id == new.window_id) = true := by
        simp [hnew]
      simp only [update_by_window_id, List.map_cons, hb', if_true]
      have : (new.window_id == c) = true := by
        simp [hnew, hwc]
      simp [List.find?_cons, this]
    | false =>
      have hfind' : t.find? (fun r => r.window_id == c) = some w := by
        simpa [List.find?_cons, hb] using hfind
      have hb' : (a.window_id == new.window_id) = false := by
        simp only [hnew]
        simp only [beq_eq_false_iff_ne] at hb ⊢
        simpa [hwc] using hb
      simp only [update_by_window_id, List.map_cons, hb', Bool.false_eq_true, if_false]
      rw [List.find?_cons, hb]
      exact ih hfind'

theorem update_by_sums {L : List MetricsWindow} {w new : MetricsWindow}
    (hfind : L.find? (fun r => r.window_id == new.window_id) = some w)
    (hnd : (L.map (fun r => r.window_id)).Nodup) :
    sumCounts (update_by_window_id L new) + w.update_count
        = sumCounts L + new.update_count
      ∧ sumTimes (update_by_window_id L new) + w.total_update_time_ms
        = sumTimes L + new.total_update_time_ms := by
  induction L with
  | nil => simp at hfind
  | cons a t ih =>
    cases hb : (a.window_id == new.window_id) with
    | true =>
      have ha : a = w := by
        simp [List.find?_cons, hb] at hfind
        exact hfind
      subst ha
      have haw : a.window_id = new.window_id := by simpa using hb
      have hnotin : ∀ r ∈ t, (r.window_id == new.window_id) = false := by
        intro r hr
        rw [beq_eq_false_iff_ne]
        intro hcon
        have hmem : r.window_id ∈ t.map (fun r => r.window_id) := List.mem_map_of_mem _ hr
        rw [hcon, ← haw] at hmem
        exact (List.nodup_cons.mp hnd).1 hmem
      unfold update_by_window_id
      simp only [List.map_cons, hb, if_true]
      have htmap : t.map (fun r => if r.window_id == new.window_id then new else r) = t := by
        have := update_by_no_match hnotin
        simpa [update_by_window_id] using this
      rw [htmap, sumCounts_cons, sumCounts_cons, sumTimes_cons, sumTimes_cons]
      constructor
      · omega
      · ring
    | false =>
      have hfind' : t.find? (fun r => r.window_id == new.window_id) = some w := by
        simpa [List.find?_cons, hb] using hfind
      have hnd' : (t.map (fun r => r.window_id)).Nodup := (List.nodup_cons.mp hnd).2
      have IH := ih hfind' hnd'
      unfold update_by_window_id
      simp only [List.map_cons, hb, Bool.false_eq_true, if_false]
      rw [sumCounts_cons, sumCounts_cons, sumTimes_cons, sumTimes_cons]
      unfold update_by_window_id at IH
      constructor
      · omega
      · have := IH.2
        linear_combination this

theorem goodWindows_nodup {t0 : Nat} {L : List MetricsWindow} (h : goodWindows t0 L) :
    (L.map (fun r => r.window_id)).Nodup := by
  rw [h.1]
  decide

theorem goodWindows_find? {t0 : Nat} {L : List MetricsWindow} (h : goodWindows t0 L)
    {i : Nat} (hi : i < metricsWindowCount) :
    ∃ w, L.find? (fun r => r.window_id == Int.ofNat i) = some w ∧ w ∈ L := by
  have hmem : Int.ofNat i ∈ L.map (fun r => r.window_id) := by
    rw [h.1]
    exact List.mem_map_of_mem _ (List.mem_range.mpr hi)
  rcases List.mem_map.mp hmem with ⟨w, hwL, hww⟩
  have hsome : (L.find? (fun r => r.window_id == Int.ofNat i)).isSome := by
    rw [List.find?_isSome]
    exact ⟨w, hwL, by simp [hww]⟩
  rcases Option.isSome_iff_exists.mp hsome with ⟨w', hw'⟩
  exact ⟨w', hw', List.mem_of_find?_eq_some hw'⟩

theorem update_by_ids (L : List MetricsWindow) (new : MetricsWindow) :
    (update_by_window_id L new).map (fun r => r.window_id)
      = L.map (fun r => r.window_id) := by
  unfold update_by_window_id
  rw [List.map_map]
  apply List.map_congr_left
  intro r _
  by_cases hb : (r.window_id == new.window_id) = true
  · simp only [Function.comp, if_pos hb]
    exact (eq_of_beq hb).symm
  · simp only [Function.comp, if_neg hb]

theorem update_by_starts {t0 : Nat} {L : List MetricsWindow} {new : MetricsWindow}
    (hL : ∀ r ∈ L, r.start_time = t0) (hnew : new.start_time = t0) :
    ∀ r ∈ update_by_window_id L new, r.start_time = t0 := by
  intro r hr
  unfold update_by_window_id at hr
  rcases List.mem_map.mp hr with ⟨s, hsL, rfl⟩
  by_cases hb : (s.window_id == new.window_id) = true
  · rw [if_pos hb]
    exact hnew
  · rw [if_neg hb]
    exact hL s hsL

theorem record_step {t0 : Nat} {db : DbState} {t : Nat} {v : Rat}
    (hg : goodWindows t0 db.metrics_window)
    (h1 : t0 ≤ t) (h2 : t < t0 + metricsWindowCount * 1000000) :
    goodWindows t0 (record_update_metrics db t v).metrics_window
      ∧ sumCounts (record_update_metrics db t v).metrics_window
          = sumCounts db.metrics_window + 1
      ∧ sumTimes (record_update_metrics db t v).metrics_window
          = sumTimes db.metrics_window + v
      ∧ (record_update_metrics db t v).server_metrics = db.server_metrics := by
  have hidx : (t / 1000000) % metricsWindowCount < metricsWindowCount :=
    Nat.mod_lt _ (by norm_num [metricsWindowCount])
  obtain ⟨w, hfind, hwL⟩ := goodWindows_find? hg hidx
  have hstart : w.start_time = t0 := hg.2 w hwL
  have hage : u64sub t w.start_time = t - t0 := by
    rw [hstart]
    exact u64sub_of_le h1 (by unfold u64size metricsWindowCount at *; omega)
  have hcond : ¬ (metricsWindowCount * 1000000 ≤ u64sub t w.start_time) := by
    rw [hage]; omega
  have hrec : record_update_metrics db t v = { db with metrics_window := update_by_window_id db.metrics_window { w with update_count := w.update_count + 1, total_update_time_ms := w.total_update_time_ms + v } } := by
    unfold record_update_metrics currentWindowId
    rw [hfind]
    simp only [if_neg hcond]
  have hwid : w.window_id = Int.ofNat ((t / 1000000) % metricsWindowCount) := by
    have := List.find?_some hfind
    simpa using this
  have hfind' : db.metrics_window.find? (fun r => r.window_id == w.window_id) = some w := by
    rw [hwid]
    exact hfind
  have hsums := @update_by_sums db.metrics_window w { w with update_count := w.update_count + 1, total_update_time_ms := w.total_update_time_ms + v } hfind' (goodWindows_nodup hg)
  have hc : sumCounts (update_by_window_id db.metrics_window { w with update_count := w.update_count + 1, total_update_time_ms := w.total_update_time_ms + v }) + w.update_count = sumCounts db.metrics_window + (w.update_count + 1) := hsums.1
  have ht : sumTimes (update_by_window_id db.metrics_window { w with update_count := w.update_count + 1, total_update_time_ms := w.total_update_time_ms + v }) + w.total_update_time_ms = sumTimes db.metrics_window + (w.total_update_time_ms + v) := hsums.2
  rw [hrec]
  refine ⟨⟨?_, ?_⟩, ?_, ?_, rfl⟩
  · show (update_by_window_id db.metrics_window _).map (fun w => w.window_id)
      = (List.range metricsWindowCount).map Int.ofNat
    rw [update_by_ids]
    exact hg.1
  · exact update_by_starts hg.2 hstart
  · show sumCounts (update_by_window_id db.metrics_window _) = sumCounts db.metrics_window + 1
    omega
  · show sumTimes (update_by_window_id db.metrics_window _) = sumTimes db.metrics_window + v
    linear_combination ht

theorem recordAll_good {t0 : Nat} (samples : List (Nat × Rat)) :
    ∀ db : DbState, goodWindows t0 db.metrics_window →
      (∀ s ∈ samples, t0 ≤ s.1 ∧ s.1 < t0 + metricsWindowCount * 1000000) →
      goodWindows t0 (recordAll db samples).metrics_window
        ∧ sumCounts (recordAll db samples).metrics_window
            = sumCounts db.metrics_window + samples.length
        ∧ sumTimes (recordAll db samples).metrics_window
            = sumTimes db.metrics_window + (samples.map Prod.snd).sum
        ∧ (recordAll db samples).server_metrics = db.server_metrics := by
  induction samples with
  | nil =>
    intro db hg _
    refine ⟨hg, by simp [recordAll], by simp [recordAll], rfl⟩
  | cons s ss ih =>
    intro db hg hs
    have hmem := hs s (List.mem_cons_self s ss)
    have hstep := @record_step t0 db s.1 s.2 hg hmem.1 hmem.2
    have hrest := ih (record_update_metrics db s.1 s.2) hstep.1
      (fun x hx => hs x (List.mem_cons_of_mem s hx))
    have hfold : recordAll db (s :: ss)
        = recordAll (record_update_metrics db s.1 s.2) ss := by
      simp [recordAll]
    rw [hfold]
    refine ⟨hrest.1, ?_, ?_, ?_⟩
    · rw [hrest.2.1, hstep.2.1]
      simp only [List.length_cons]
      push_cast
      omega
    · rw [hrest.2.2.1, hstep.2.2.1]
      simp only [List.map_cons, List.sum_cons]
      ring
    · rw [hrest.2.2.2, hstep.2.2.2]

/-- C1: for every sequence of sequential `record` calls whose timestamps lie
within one window period (60 s) after initialization, and any read time in
that same period, the bucket scan `liveTotals` returns exactly the number of
`record` calls and the exact sum of the recorded latencies: no sample is
lost or double-counted. -/
theorem claim1_sequential_record_exact_totals (t0 now : Nat) (samples : List (Nat × Rat))
    (hs : ∀ s ∈ samples, t0 ≤ s.1 ∧ s.1 < t0 + metricsWindowCount * 1000000)
    (hn1 : t0 ≤ now) (hn2 : now < t0 + metricsWindowCount * 1000000) :
    liveTotals (recordAll (init_metrics { metrics_window := [], server_metrics := [] } t0)
        samples).metrics_window now
      = ((samples.length : Int), (samples.map Prod.snd).sum) := by
  have hm : metricsWindowCount * 1000000 = 60000000 := rfl
  have hu : u64size = 18446744073709551616 := rfl
  rw [init_metrics_empty]
  obtain ⟨hg, hc, htt, _⟩ := recordAll_good samples
    { metrics_window := initialWindows t0, server_metrics := [] }
    (initialWindows_good t0) hs
  rw [liveTotals_all_live ?live]
  case live =>
    intro w hw
    rw [hg.2 w hw, u64sub_of_le hn1 (by omega)]
    omega
  rw [hc, htt]
  simp [sumCounts_initialWindows, sumTimes_initialWindows]

theorem claim1_sequential_record_exact_totals_witness :
    liveTotals (recordAll (init_metrics { metrics_window := [], server_metrics := [] } 0)
        [(100000, 10), (200000, 20)]).metrics_window 1000000
      = ((2 : Int), (10 : Rat) + 20) := by
  have h := claim1_sequential_record_exact_totals 0 1000000 [(100000, 10), (200000, 20)]
    (by decide) (by decide) (by decide)
  simpa using h

/-- C7: a `record` call that finds no bucket at the computed index (for
example, `record` invoked before `init_metrics`) is a no-op: it returns the
state unchanged and never fails. -/
theorem claim7_record_missing_bucket_noop (db : DbState) (now : Nat) (v : Rat)
    (h : db.metrics_window.find? (fun r => r.window_id == currentWindowId now) = none) :
    record_update_metrics db now v = db := by
  unfold record_update_metrics
  rw [h]

theorem claim7_record_missing_bucket_noop_witness :
    record_update_metrics { metrics_window := [], server_metrics := [] } 0 1
      = { metrics_window := [], server_metrics := [] } :=
  claim7_record_missing_bucket_noop { metrics_window := [], server_metrics := [] } 0 1 rfl

/-- C2: for a bucket whose `windowStart` is `T` (microseconds), a `record`
call at time `now ≥ T` targeting that bucket index resets the bucket
(`windowStart = now`, `sampleCount = 1`, `totalLatency = v`) exactly when
`now - T ≥ 60` seconds, and accumulates (`sampleCount += 1`,
`totalLatency += v`, `windowStart` unchanged) whenever `now - T < 60`
seconds. -/
theorem claim2_rollover_boundary (db : DbState) (now T : Nat) (v : Rat) (w : MetricsWindow)
    (hfind : db.metrics_window.find? (fun r => r.window_id == currentWindowId now) = some w)
    (hT : w.start_time = T) (hle : T ≤ now) (hnow : now < u64size) :
    ((60 * 1000000 ≤ now - T) →
      ∃ w', (record_update_metrics db now v).metrics_window.find?
          (fun r => r.window_id == currentWindowId now) = some w'
        ∧ w'.start_time = now ∧ w'.update_count = 1 ∧ w'.total_update_time_ms = v)
    ∧ ((now - T < 60 * 1000000) →
      ∃ w', (record_update_metrics db now v).metrics_window.find?
          (fun r => r.window_id == currentWindowId now) = some w'
        ∧ w'.start_time = T ∧ w'.update_count = w.update_count + 1
        ∧ w'.total_update_time_ms = w.total_update_time_ms + v) := by
  have hm : metricsWindowCount * 1000000 = 60000000 := rfl
  have hu : u64size = 18446744073709551616 := rfl
  have hage : u64sub now w.start_time = now - T := by
    rw [hT]
    exact u64sub_of_le hle (by omega)
  constructor
  · intro h
    have hcond : metricsWindowCount * 1000000 ≤ u64sub now w.start_time := by
      rw [hage]; omega
    have hrec : record_update_metrics db now v = { db with metrics_window := update_by_window_id db.metrics_window { w with start_time := now, update_count := 1, total_update_time_ms := v } } := by
      unfold record_update_metrics
      rw [hfind]
      simp only [if_pos hcond]
    refine ⟨{ w with start_time := now, update_count := 1, total_update_time_ms := v }, ?_, rfl, rfl, rfl⟩
    rw [hrec]
    exact find?_update_by hfind rfl
  · intro h
    have hcond : ¬ (metricsWindowCount * 1000000 ≤ u64sub now w.start_time) := by
      rw [hage]; omega
    have hrec : record_update_metrics db now v = { db with metrics_window := update_by_window_id db.metrics_window { w with update_count := w.update_count + 1, total_update_time_ms := w.total_update_time_ms + v } } := by
      unfold record_update_metrics
      rw [hfind]
      simp only [if_neg hcond]
    refine ⟨{ w with update_count := w.update_count + 1, total_update_time_ms := w.total_update_time_ms + v }, ?_, hT, rfl, rfl⟩
    rw [hrec]
    exact find?_update_by hfind rfl

theorem claim2_rollover_boundary_witness :
    (60 * 1000000 ≤ 60000000 - 0)
      ∧ ∃ w', (record_update_metrics
            { metrics_window := [{ window_id := 0, start_time := 0, update_count := 3, total_update_time_ms := 7 }],
              server_metrics := [] } 60000000 5).metrics_window.find?
          (fun r => r.window_id == currentWindowId 60000000) = some w'
        ∧ w'.start_time = 60000000 ∧ w'.update_count = 1 ∧ w'.total_update_time_ms = 5 := by
  refine ⟨by decide, ?_⟩
  exact (claim2_rollover_boundary
    { metrics_window := [{ window_id := 0, start_time := 0, update_count := 3, total_update_time_ms := 7 }],
      server_metrics := [] }
    60000000 0 5
    { window_id := 0, start_time := 0, update_count := 3, total_update_time_ms := 7 }
    rfl rfl (by decide) (by decide)).1 (by decide)

/-- C3: every tick's emitted snapshot satisfies
`updatesPerSecond = totalUpdates / 60` with `totalUpdates` the live-bucket
sample count; in particular, after `initialize(t=0)`, `record(t=0.1, 10ms)`,
`record(t=0.2, 20ms)`, the snapshot composed by `tick(t=1.0, clients=5,
mem=100, cpu=12.5)` has `updatesPerSecond = 2/60`,
`averageUpdateTimeMs = 15`, `connectedClients = 5`, `memoryUsageMb = 100`,
`cpuUsagePercent = 12.5`. -/
theorem claim3_tick_rate_formula_and_example :
    (∀ (db : DbState) (now : Nat) (c : Int) (m p : Rat),
        (tickSnapshot db now c m p).updates_per_second
          = ((liveTotals db.metrics_window now).1 : Rat) / 60)
      ∧ ((tickSnapshot (recordAll (init_metrics { metrics_window := [], server_metrics := [] } 0)
            [(100000, 10), (200000, 20)]) 1000000 5 100 (25/2)).updates_per_second = 2 / 60
        ∧ (tickSnapshot (recordAll (init_metrics { metrics_window := [], server_metrics := [] } 0)
            [(100000, 10), (200000, 20)]) 1000000 5 100 (25/2)).average_update_time_ms = 15
        ∧ (tickSnapshot (recordAll (init_metrics { metrics_window := [], server_metrics := [] } 0)
            [(100000, 10), (200000, 20)]) 1000000 5 100 (25/2)).connected_clients = 5
        ∧ (tickSnapshot (recordAll (init_metrics { metrics_window := [], server_metrics := [] } 0)
            [(100000, 10), (200000, 20)]) 1000000 5 100 (25/2)).memory_usage_mb = 100
        ∧ (tickSnapshot (recordAll (init_metrics { metrics_window := [], server_metrics := [] } 0)
            [(100000, 10), (200000, 20)]) 1000000 5 100 (25/2)).cpu_usage_percent = 25/2) := by
  constructor
  · intro db now c m p
    simp [tickSnapshot, metricsWindowCount]
  · have hlive : liveTotals (recordAll (init_metrics { metrics_window := [], server_metrics := [] } 0)
        [(100000, 10), (200000, 20)]).metrics_window 1000000 = ((2 : Int), (30 : Rat)) := by
      rw [init_metrics_empty]
      obtain ⟨hg, hc, htt, _⟩ := recordAll_good [(100000, 10), (200000, 20)]
        { metrics_window := initialWindows 0, server_metrics := [] }
        (initialWindows_good 0) (by decide)
      rw [liveTotals_all_live ?live]
      case live =>
        intro w hw
        rw [hg.2 w hw]
        decide
      rw [hc, htt]
      simp [sumCounts_initialWindows, sumTimes_initialWindows]
      norm_num
    refine ⟨?_, ?_, rfl, rfl, rfl⟩
    · norm_num [tickSnapshot, hlive, metricsWindowCount]
    · norm_num [tickSnapshot, hlive]

/-- C4: whenever the live-bucket total sample count is zero, the emitted
snapshot's `averageUpdateTimeMs` is exactly `0` (the guarded division is
skipped); in particular, with no `record` calls for 70 seconds after
`initialize(t=0)`, `tick(t=70)` composes a snapshot with
`updatesPerSecond = 0` and `averageUpdateTimeMs = 0`. -/
theorem claim4_idle_average_zero :
    (∀ (db : DbState) (now : Nat) (c : Int) (m p : Rat),
        (liveTotals db.metrics_window now).1 = 0 →
          (tickSnapshot db now c m p).average_update_time_ms = 0
            ∧ (tickSnapshot db now c m p).updates_per_second = 0)
      ∧ ((tickSnapshot (init_metrics { metrics_window := [], server_metrics := [] } 0)
            70000000 0 0 0).updates_per_second = 0
        ∧ (tickSnapshot (init_metrics { metrics_window := [], server_metrics := [] } 0)
            70000000 0 0 0).average_update_time_ms = 0) := by
  constructor
  · intro db now c m p h
    constructor
    · simp [tickSnapshot, h]
    · simp [tickSnapshot, h]
  · have hlive : liveTotals (init_metrics { metrics_window := [], server_metrics := [] } 0).metrics_window
        70000000 = ((0 : Int), (0 : Rat)) := by
      rw [init_metrics_empty]
      apply liveTotals_none_live
      intro w hw
      have hst := (initialWindows_good 0).2 w hw
      rw [hst]
      decide
    constructor
    · simp [tickSnapshot, hlive]
    · simp [tickSnapshot, hlive]

theorem claim4_idle_average_zero_witness :
    (tickSnapshot { metrics_window := [], server_metrics := [] } 0 0 0 0).average_update_time_ms = 0
      ∧ (tickSnapshot { metrics_window := [], server_metrics := [] } 0 0 0 0).updates_per_second = 0 :=
  claim4_idle_average_zero.1 { metrics_window := [], server_metrics := [] } 0 0 0 0 rfl

/-- C5: after `tick(now)` — with `now` a valid `u64` at least 60 s past the
epoch, so the cutoff subtraction does not wrap — every snapshot remaining in
the store has `timestamp ≥ now - 60` seconds, and a snapshot keyed by `now`
is present in the store. -/
theorem claim5_retention_after_tick (db : DbState) (now : Nat) (c : Int) (m p : Rat)
    (h60 : 60000000 ≤ now) (hnow : now < u64size) :
    (∀ s ∈ (update_server_metrics db now c m p).server_metrics,
        now - 60000000 ≤ s.timestamp)
      ∧ ∃ s ∈ (update_server_metrics db now c m p).server_metrics, s.timestamp = now := by
  have hu : u64size = 18446744073709551616 := rfl
  have hcut : u64sub now 60000000 = now - 60000000 :=
    u64sub_of_le h60 (by omega)
  have hunf : (update_server_metrics db now c m p).server_metrics
      = (insertSnapshot db.server_metrics (tickSnapshot db now c m p)).filter
          (fun s => !(decide (s.timestamp < u64sub now 60000000))) := rfl
  constructor
  · intro s hs
    rw [hunf] at hs
    have hpred := (List.mem_filter.mp hs).2
    simp only [Bool.not_eq_true', decide_eq_false_iff_not, Nat.not_lt, hcut] at hpred
    exact hpred
  · have hkeep : ∀ s : ServerMetrics, s.timestamp = now →
        (fun s => !(decide (s.timestamp < u64sub now 60000000))) s = true := by
      intro s hsts
      simp only [Bool.not_eq_true', decide_eq_false_iff_not, Nat.not_lt, hcut, hsts]
      omega
    by_cases hdup : (db.server_metrics.any
        (fun r => r.timestamp == (tickSnapshot db now c m p).timestamp)) = true
    · rcases List.any_eq_true.mp hdup with ⟨old, hold, holdts⟩
      have holdnow : old.timestamp = now := by
        have := eq_of_beq holdts
        simpa [tickSnapshot] using this
      refine ⟨old, ?_, holdnow⟩
      rw [hunf]
      apply List.mem_filter.mpr
      refine ⟨?_, hkeep old holdnow⟩
      unfold insertSnapshot
      rw [if_pos hdup]
      exact hold
    · refine ⟨tickSnapshot db now c m p, ?_, rfl⟩
      rw [hunf]
      apply List.mem_filter.mpr
      refine ⟨?_, hkeep _ rfl⟩
      unfold insertSnapshot
      rw [if_neg hdup]
      exact List.mem_append_right _ (List.mem_singleton.mpr rfl)

theorem claim5_retention_after_tick_witness :
    (∀ s ∈ (update_server_metrics { metrics_window := [], server_metrics := [] }
        60000000 0 0 0).server_metrics, 60000000 - 60000000 ≤ s.timestamp)
      ∧ ∃ s ∈ (update_server_metrics { metrics_window := [], server_metrics := [] }
          60000000 0 0 0).server_metrics, s.timestamp = 60000000 :=
  claim5_retention_after_tick { metrics_window := [], server_metrics := [] }
    60000000 0 0 0 (by decide) (by decide)

/-- C8 counterexample: the tick stores negative provider values unchanged —
with connected-client count `-5`, memory `-3` MB and CPU `-1` %, the
composed snapshot carries exactly those negative values, so they are not
clamped to zero as the claim states. -/
theorem claim8_negative_not_clamped_counterexample :
    (tickSnapshot { metrics_window := [], server_metrics := [] } 0 (-5) (-3) (-1)).connected_clients = -5
      ∧ (tickSnapshot { metrics_window := [], server_metrics := [] } 0 (-5) (-3) (-1)).memory_usage_mb = -3
      ∧ (tickSnapshot { metrics_window := [], server_metrics := [] } 0 (-5) (-3) (-1)).cpu_usage_percent = -1
      ∧ ¬ ((tickSnapshot { metrics_window := [], server_metrics := [] } 0 (-5) (-3) (-1)).cpu_usage_percent = 0) := by
  refine ⟨rfl, rfl, rfl, ?_⟩
  show ¬ ((-1 : Rat) = 0)
  norm_num

/-- C8 amended: the externally supplied provider values (connected-entity
count, memory MB, CPU percent) are stored in the snapshot entirely
unvalidated — negative values included, with no clamping — and, when the
snapshot key is fresh and the cutoff does not wrap, the stored snapshot
carries exactly the supplied values. -/
theorem claim8_providers_stored_unvalidated (db : DbState) (now : Nat) (c : Int) (m p : Rat)
    (h60 : 60000000 ≤ now) (hnow : now < u64size)
    (hfresh : ∀ s ∈ db.server_metrics, s.timestamp ≠ now) :
    (tickSnapshot db now c m p).connected_clients = c
      ∧ (tickSnapshot db now c m p).memory_usage_mb = m
      ∧ (tickSnapshot db now c m p).cpu_usage_percent = p
      ∧ ∃ s ∈ (update_server_metrics db now c m p).server_metrics,
          s.timestamp = now ∧ s.connected_clients = c
            ∧ s.memory_usage_mb = m ∧ s.cpu_usage_percent = p := by
  have hu : u64size = 18446744073709551616 := rfl
  have hcut : u64sub now 60000000 = now - 60000000 :=
    u64sub_of_le h60 (by omega)
  refine ⟨rfl, rfl, rfl, ?_⟩
  have hdup : (db.server_metrics.any
      (fun r => r.timestamp == (tickSnapshot db now c m p).timestamp)) ≠ true := by
    intro hany
    rcases List.any_eq_true.mp hany with ⟨old, hold, holdts⟩
    exact hfresh old hold (by simpa [tickSnapshot] using eq_of_beq holdts)
  refine ⟨tickSnapshot db now c m p, ?_, rfl, rfl, rfl, rfl⟩
  have hunf : (update_server_metrics db now c m p).server_metrics
      = (insertSnapshot db.server_metrics (tickSnapshot db now c m p)).filter
          (fun s => !(decide (s.timestamp < u64sub now 60000000))) := rfl
  rw [hunf]
  apply List.mem_filter.mpr
  constructor
  · unfold insertSnapshot
    rw [if_neg hdup]
    exact List.mem_append_right _ (List.mem_singleton.mpr rfl)
  · simp only [Bool.not_eq_true', decide_eq_false_iff_not, Nat.not_lt, hcut]
    have hts : (tickSnapshot db now c m p).timestamp = now := rfl
    rw [hts]
    omega

theorem claim8_providers_stored_unvalidated_witness :
    (tickSnapshot { metrics_window := [], server_metrics := [] } 60000000 (-5) (-3) (-1)).connected_clients = -5
      ∧ (tickSnapshot { metrics_window := [], server_metrics := [] } 60000000 (-5) (-3) (-1)).memory_usage_mb = -3
      ∧ (tickSnapshot { metrics_window := [], server_metrics := [] } 60000000 (-5) (-3) (-1)).cpu_usage_percent = -1
      ∧ ∃ s ∈ (update_server_metrics { metrics_window := [], server_metrics := [] }
            60000000 (-5) (-3) (-1)).server_metrics,
          s.timestamp = 60000000 ∧ s.connected_clients = -5
            ∧ s.memory_usage_mb = -3 ∧ s.cpu_usage_percent = -1 :=
  claim8_providers_stored_unvalidated { metrics_window := [], server_metrics := [] }
    60000000 (-5) (-3) (-1) (by decide) (by decide) (by simp)

theorem update_by_frame (L : List MetricsWindow) (new : MetricsWindow) (c : Int)
    (hc : new.window_id = c) :
    List.Forall₂ (fun o n => o.window_id ≠ c → n = o)
      L (update_by_window_id L new) := by
  unfold update_by_window_id
  induction L with
  | nil => exact List.Forall₂.nil
  | cons a t ih =>
    refine List.Forall₂.cons (fun hne => ?_) ih
    show (if a.window_id == new.window_id then new else a) = a
    rw [if_neg (fun hb => hne (hc ▸ eq_of_beq hb))]

/-- C9: a `record` call touches at most the single bucket at the computed
index `floor(now/1s) mod 60`: the `ServerMetrics` table is unchanged, and
every `MetricsWindow` row whose id differs from the computed index is left
exactly as it was (positionally, so nothing is added, removed or moved). -/
theorem claim9_record_frame_effect (db : DbState) (now : Nat) (v : Rat) :
    (record_update_metrics db now v).server_metrics = db.server_metrics
      ∧ List.Forall₂ (fun o n => o.window_id ≠ currentWindowId now → n = o)
          db.metrics_window (record_update_metrics db now v).metrics_window := by
  unfold record_update_metrics
  cases hf : db.metrics_window.find? (fun r => r.window_id == currentWindowId now) with
  | none =>
    exact ⟨rfl, List.forall₂_same.mpr (fun x _ _ => rfl)⟩
  | some w =>
    have hwid : w.window_id = currentWindowId now := by
      simpa using List.find?_some hf
    refine ⟨rfl, ?_⟩
    apply update_by_frame
    by_cases hcond : metricsWindowCount * 1000000 ≤ u64sub now w.start_time
    · rw [if_pos hcond]
      exact hwid
    · rw [if_neg hcond]
      exact hwid

theorem claim9_record_frame_effect_witness :
    (record_update_metrics
        { metrics_window := [{ window_id := 5, start_time := 0, update_count := 2, total_update_time_ms := 4 }],
          server_metrics := [] } 0 1).server_metrics = []
      ∧ List.Forall₂ (fun o n => o.window_id ≠ currentWindowId 0 → n = o)
          [{ window_id := 5, start_time := 0, update_count := 2, total_update_time_ms := 4 }]
          (record_update_metrics
            { metrics_window := [{ window_id := 5, start_time := 0, update_count := 2, total_update_time_ms := 4 }],
              server_metrics := [] } 0 1).metrics_window :=
  claim9_record_frame_effect
    { metrics_window := [{ window_id := 5, start_time := 0, update_count := 2, total_update_time_ms := 4 }],
      server_metrics := [] } 0 1

set_option maxRecDepth 1000000

/-- C6 counterexample: `init_metrics` inserts; on a second run every insert
hits an existing `window_id` and fails, so nothing is reset.  After
`initialize(0)`, `record(0, 10 ms)`, a second `initialize(0)`, the scan
still reads the recorded sample: `liveTotals` is not `(0, 0)`. -/
theorem claim6_second_init_not_reset_counterexample :
    liveTotals ((init_metrics (record_update_metrics
        (init_metrics { metrics_window := [], server_metrics := [] } 0) 0 10) 0).metrics_window) 0
      ≠ ((0 : Int), (0 : Rat)) := by
  decide

/-- C6 amended: a second `init_metrics` call, made when all 60 bucket ids
already exist, is a complete no-op — every insert fails on the duplicate
primary key — so the buckets are neither re-created nor reset, and a
`liveTotals` read immediately after the second call returns exactly what it
returned before it (not necessarily `(0, 0)`). -/
theorem claim6_second_init_is_noop (db : DbState) (t1 now : Nat)
    (h : ∀ i ∈ List.range metricsWindowCount,
        db.metrics_window.any (fun r => r.window_id == Int.ofNat i) = true) :
    init_metrics db t1 = db
      ∧ liveTotals ((init_metrics db t1).metrics_window) now
          = liveTotals db.metrics_window now := by
  have key : ∀ l : List Nat,
      (∀ i ∈ l, db.metrics_window.any (fun r => r.window_id == Int.ofNat i) = true) →
      l.foldl (fun tbl i => insertWindow tbl
        { window_id := Int.ofNat i,
          start_time := t1,
          update_count := 0,
          total_update_time_ms := 0 }) db.metrics_window = db.metrics_window := by
    intro l
    induction l with
    | nil => intro _; rfl
    | cons a t ih =>
      intro hl
      simp only [List.foldl_cons]
      have hstep : insertWindow db.metrics_window
          { window_id := Int.ofNat a,
            start_time := t1,
            update_count := 0,
            total_update_time_ms := 0 } = db.metrics_window := by
        unfold insertWindow
        rw [if_pos (hl a (List.mem_cons_self a t))]
      rw [hstep]
      exact ih (fun i hi => hl i (List.mem_cons_of_mem a hi))
  have heq : init_metrics db t1 = db := by
    unfold init_metrics
    rw [key (List.range metricsWindowCount) h]
  exact ⟨heq, by rw [heq]⟩

theorem claim6_second_init_is_noop_witness :
    init_metrics
        { metrics_window := initialWindows 5, server_metrics := [] } 7
      = { metrics_window := initialWindows 5, server_metrics := [] }
      ∧ liveTotals ((init_metrics
          { metrics_window := initialWindows 5, server_metrics := [] } 7).metrics_window) 9
        = liveTotals (initialWindows 5) 9 :=
  claim6_second_init_is_noop
    { metrics_window := initialWindows 5, server_metrics := [] } 7 9 (by decide)

/-- C10 counterexample: with `windowStart = 2^64 - 1` μs and `now = 0`
(clock regression of almost the full `u64` range), the wrapped difference
`now - windowStart` is `1 < 60·10^6`, so the bucket is NOT treated as
expired: `record` accumulates into it (count 3 → 4, `windowStart`
unchanged) instead of resetting it, and the tick scan still counts it. -/
theorem claim10_wraparound_counterexample :
    ((record_update_metrics
        { metrics_window := [{ window_id := 0, start_time := 18446744073709551615, update_count := 3, total_update_time_ms := 7 }],
          server_metrics := [] } 0 5).metrics_window.map
        (fun w => (w.window_id, w.start_time, w.update_count)))
      = [((0 : Int), (18446744073709551615 : Nat), (4 : Int))]
    ∧ (liveTotals [{ window_id := 0, start_time := 18446744073709551615, update_count := 3, total_update_time_ms := 7 }] 0).1 = 3 := by
  constructor
  · decide
  · decide

/-- C10 amended: both `record` and the tick scan test bucket age with the
wrapping `u64` subtraction `u64sub now windowStart` against 60 s.  For
`now ≥ windowStart` this agrees exactly with the real age predicate
`now - windowStart ≥ 60 s`.  For `now < windowStart` (clock regression) the
wrapped value is `2^64 - (windowStart - now)`, so the bucket is treated as
expired (reset by `record`, excluded by the scan) precisely when the
regression `windowStart - now` is at most `2^64 - 60·10^6` μs — i.e. for
every realistic regression — and is treated as live when the regression
exceeds that bound. -/
theorem claim10_wrapping_age_test (now start : Nat)
    (h1 : now < u64size) (h2 : start < u64size) :
    (start ≤ now →
        (metricsWindowCount * 1000000 ≤ u64sub now start
          ↔ 60000000 ≤ now - start))
      ∧ (now < start →
        (metricsWindowCount * 1000000 ≤ u64sub now start
          ↔ start - now ≤ u64size - 60000000)) := by
  have hm : metricsWindowCount * 1000000 = 60000000 := rfl
  have hu : u64size = 18446744073709551616 := rfl
  constructor
  · intro hle
    rw [u64sub_of_le hle (by omega), hm]
  · intro hlt
    rw [u64sub_of_lt hlt h2, hm]
    omega

theorem claim10_wrapping_age_test_witness :
    ((100 : Nat) ≤ 50 →
        (metricsWindowCount * 1000000 ≤ u64sub 50 100
          ↔ 60000000 ≤ 50 - 100))
      ∧ ((50 : Nat) < 100 →
        (metricsWindowCount * 1000000 ≤ u64sub 50 100
          ↔ 100 - 50 ≤ u64size - 60000000)) :=
  claim10_wrapping_age_test 50 100 (by decide) (by decide)
